import Mathlib

/-!
# Shallow embedding of the `cwextab` exception-table decoder

This file embeds the decoder of `src/lib/src/lib.rs` (crate `cwextab`): the
cursor-based parser that turns a raw byte buffer into a decoded exception
table (PC ranges, action records, destructor relocations), together with the
per-action portion of the text renderer.

Modelling conventions:
* A byte buffer is a `List Nat`; every read reduces the stored value `% 256`,
  mirroring the `u8` element type of the Rust `&[u8]` buffer.
* Buffer offsets and lengths are `Nat`. In the source they are `i32`/`u32`;
  for any buffer of length below `2^31` the two agree exactly, so no wrap is
  modelled there. The one place a 32-bit wrap can fire even on tiny buffers
  is the `end_pc` computation (`start_pc + range_size` on `u32`, where
  `start_pc` is a full 32-bit value decoded from the buffer); that addition
  is modelled with an explicit `% 2^32`.
* The byte-reading helpers live in the crate's `mem_utils` module, whose
  source file is not part of the tree; they are modelled from the spec
  (§4.1): fixed-width big-endian reads at a cursor, with peek/advance driven
  by the caller. The source panics when fewer bytes remain than the
  requested width; a failed read is modelled as `none` and surfaces as the
  `ParseResult.panicked` outcome of the decoder.
* Fallible decoding returns `ParseResult`: `ok` (the Rust `Ok`),
  `err` (the Rust `Err`), and `panicked` (an out-of-bounds read or slice,
  which panics in the source).
-/

namespace Cwextab

/-- The error enum `ExtabDecodeError` of the source (lib.rs:11-21). -/
inductive ExtabDecodeError where
  | ArrayTooSmall (len : Nat)
  | InvalidActionValue (value offset : Nat)
  | InvalidSmallTableTerminator
  | Internal
deriving DecidableEq, Repr

/-- The action-kind enum `ExAction` (lib.rs:110-128). -/
inductive ExAction where
  | EndOfList
  | Branch
  | DestroyLocal
  | DestroyLocalCond
  | DestroyLocalPointer
  | DestroyLocalArray
  | DestroyBase
  | DestroyMember
  | DestroyMemberCond
  | DestroyMemberArray
  | DeletePointer
  | DeletePointerCond
  | CatchBlock
  | ActiveCatchBlock
  | Terminate
  | Specification
  | CatchBlock32
deriving DecidableEq, Repr

/-- `ExAction::to_int` (lib.rs:131-151). -/
def ExAction.to_int : ExAction → Nat
  | .EndOfList => 0
  | .Branch => 1
  | .DestroyLocal => 2
  | .DestroyLocalCond => 3
  | .DestroyLocalPointer => 4
  | .DestroyLocalArray => 5
  | .DestroyBase => 6
  | .DestroyMember => 7
  | .DestroyMemberCond => 8
  | .DestroyMemberArray => 9
  | .DeletePointer => 10
  | .DeletePointerCond => 11
  | .CatchBlock => 12
  | .ActiveCatchBlock => 13
  | .Terminate => 14
  | .Specification => 15
  | .CatchBlock32 => 16

/-- `ExAction::from_int` (lib.rs:153-178): tag values 0-16 map to the
seventeen action kinds, anything else is rejected with `None`. -/
def ExAction.from_int (val : Nat) : Option ExAction :=
  match val with
  | 0 => some .EndOfList
  | 1 => some .Branch
  | 2 => some .DestroyLocal
  | 3 => some .DestroyLocalCond
  | 4 => some .DestroyLocalPointer
  | 5 => some .DestroyLocalArray
  | 6 => some .DestroyBase
  | 7 => some .DestroyMember
  | 8 => some .DestroyMemberCond
  | 9 => some .DestroyMemberArray
  | 10 => some .DeletePointer
  | 11 => some .DeletePointerCond
  | 12 => some .CatchBlock
  | 13 => some .ActiveCatchBlock
  | 14 => some .Terminate
  | 15 => some .Specification
  | 16 => some .CatchBlock32
  | _ => none

/-- The decoded-field enum `ExActionData` (lib.rs:25-106). -/
inductive ExActionData where
  | EndOfList
  | Branch (target_offset : Nat)
  | DestroyLocal (local_offset dtor_address : Nat)
  | DestroyLocalCond (condition local_offset unk4 dtor_address : Nat)
  | DestroyLocalPointer (local_pointer dtor_address : Nat)
  | DestroyLocalArray (local_array elements element_size dtor_address : Nat)
  | DestroyBase (object_pointer member_offset dtor_address : Nat)
  | DestroyMember (object_pointer member_offset dtor_address : Nat)
  | DestroyMemberCond (condition object_pointer member_offset unk8 dtor_address : Nat)
  | DestroyMemberArray (object_pointer member_offset elements element_size dtor_address : Nat)
  | DeletePointer (object_pointer dtor_address : Nat)
  | DeletePointerCond (condition object_pointer unk4 dtor_address : Nat)
  | CatchBlock (unk0 catch_type catch_pc_offset cinfo_ref : Nat)
  | ActiveCatchBlock (cinfo_ref : Nat)
  | Terminate
  | Specification (specs pc_offset cinfo_ref : Nat) (spec : List Nat)
  | CatchBlock32 (unk0 catch_type catch_pc_offset cinfo_ref : Nat)
deriving DecidableEq, Repr

/-- The `ExAction` kind that an `ExActionData` variant belongs to. -/
def ExActionData.kind : ExActionData → ExAction
  | .EndOfList => .EndOfList
  | .Branch _ => .Branch
  | .DestroyLocal _ _ => .DestroyLocal
  | .DestroyLocalCond _ _ _ _ => .DestroyLocalCond
  | .DestroyLocalPointer _ _ => .DestroyLocalPointer
  | .DestroyLocalArray _ _ _ _ => .DestroyLocalArray
  | .DestroyBase _ _ _ => .DestroyBase
  | .DestroyMember _ _ _ => .DestroyMember
  | .DestroyMemberCond _ _ _ _ _ => .DestroyMemberCond
  | .DestroyMemberArray _ _ _ _ _ => .DestroyMemberArray
  | .DeletePointer _ _ => .DeletePointer
  | .DeletePointerCond _ _ _ _ => .DeletePointerCond
  | .CatchBlock _ _ _ _ => .CatchBlock
  | .ActiveCatchBlock _ => .ActiveCatchBlock
  | .Terminate => .Terminate
  | .Specification _ _ _ _ => .Specification
  | .CatchBlock32 _ _ _ _ => .CatchBlock32

/-- Modelled from the spec: `mem_utils::read_byte` (the `mem_utils` module is
declared in lib.rs:9 but its source file is not in the tree). Spec §4.1: read
one byte at the cursor; the source panics when the offset is out of bounds,
modelled as `none`. Stored values are reduced `% 256`, the `u8` range. -/
def read_byte (data : List Nat) (offset : Nat) : Option Nat :=
  (data[offset]?).map (fun b => b % 256)

/-- Modelled from the spec: `mem_utils::read_uint16`, a fixed-width 16-bit
big-endian read (spec §4.1); `none` models the source's panic on a read past
the end of the buffer. -/
def read_uint16 (data : List Nat) (offset : Nat) : Option Nat :=
  match read_byte data offset, read_byte data (offset + 1) with
  | some b0, some b1 => some (b0 * 256 + b1)
  | _, _ => none

/-- Modelled from the spec: `mem_utils::read_uint32`, a fixed-width 32-bit
big-endian read (spec §4.1); `none` models the source's panic on a read past
the end of the buffer. -/
def read_uint32 (data : List Nat) (offset : Nat) : Option Nat :=
  match read_byte data offset, read_byte data (offset + 1),
        read_byte data (offset + 2), read_byte data (offset + 3) with
  | some b0, some b1, some b2, some b3 =>
      some (((b0 * 256 + b1) * 256 + b2) * 256 + b3)
  | _, _, _, _ => none

/-- The sequence of `read_uint32` calls in the `Specification` arm of
`get_exaction_data` (lib.rs:421-426): `n` consecutive 32-bit big-endian
values starting at `offset`. -/
def read_uint32_list (data : List Nat) (offset n : Nat) : Option (List Nat) :=
  match n with
  | 0 => some []
  | m + 1 =>
    match read_uint32 data offset with
    | none => none
    | some v => (read_uint32_list data (offset + 4) m).map (fun l => v :: l)

/-- The struct `ExceptionAction` (lib.rs:207-214). -/
structure ExceptionAction where
  action_offset : Nat
  action_type : ExAction
  action_param : Nat
  has_end_bit : Bool
  bytes : List Nat
deriving DecidableEq, Repr

/-- `ExceptionAction::has_dtor_ref` (lib.rs:228-239), phrased on the
`action_type` field it inspects. -/
def ExAction.has_dtor_ref : ExAction → Bool
  | .EndOfList
  | .Branch
  | .CatchBlock
  | .ActiveCatchBlock
  | .Terminate
  | .Specification
  | .CatchBlock32 => false
  | _ => true

/-- `ExceptionAction::get_dtor_address_value_offset` (lib.rs:243-260). -/
def get_dtor_address_value_offset : ExAction → Option Nat
  | .DestroyLocal => some 2
  | .DestroyLocalCond => some 6
  | .DestroyLocalPointer => some 2
  | .DestroyLocalArray => some 6
  | .DestroyBase => some 6
  | .DestroyMember => some 6
  | .DestroyMemberCond => some 10
  | .DestroyMemberArray => some 14
  | .DeletePointer => some 2
  | .DeletePointerCond => some 6
  | _ => none

/-- Outcome of `ExceptionAction::get_dtor_relocation`: `noRef` is the
source's `None` (no destructor reference, or no known field offset);
`panicked` models the source's panic when the 32-bit read runs past the end
of the payload; `reloc` is the source's `Some((offset, address))`. -/
inductive RelocResult where
  | noRef
  | panicked
  | reloc (offset address : Nat)
deriving DecidableEq, Repr

/-- `ExceptionAction::get_dtor_relocation` (lib.rs:263-278). -/
def get_dtor_relocation (a : ExceptionAction) : RelocResult :=
  if a.action_type.has_dtor_ref = false then .noRef
  else
    match get_dtor_address_value_offset a.action_type with
    | none => .noRef
    | some offset =>
      match read_uint32 a.bytes offset with
      | none => .panicked
      | some address => .reloc offset address

/-- `ExceptionAction::get_exaction_data` (lib.rs:282-447): re-parse the
opaque payload into the type-specific field set. The source threads a
mutable cursor through consecutive reads; the fixed offsets below are that
threading unfolded. `none` models the source panicking on a payload too
short for its kind. -/
def get_exaction_data (a : ExceptionAction) : Option ExActionData :=
  match a.action_type with
  | .EndOfList => some .EndOfList
  | .Branch =>
    (read_uint16 a.bytes 0).map (fun t => .Branch t)
  | .DestroyLocal =>
    match read_uint16 a.bytes 0, read_uint32 a.bytes 2 with
    | some lo, some da => some (.DestroyLocal lo da)
    | _, _ => none
  | .DestroyLocalCond =>
    match read_uint16 a.bytes 0, read_uint16 a.bytes 2,
          read_uint16 a.bytes 4, read_uint32 a.bytes 6 with
    | some c, some lo, some u, some da => some (.DestroyLocalCond c lo u da)
    | _, _, _, _ => none
  | .DestroyLocalPointer =>
    match read_uint16 a.bytes 0, read_uint32 a.bytes 2 with
    | some lp, some da => some (.DestroyLocalPointer lp da)
    | _, _ => none
  | .DestroyLocalArray =>
    match read_uint16 a.bytes 0, read_uint16 a.bytes 2,
          read_uint16 a.bytes 4, read_uint32 a.bytes 6 with
    | some la, some el, some es, some da => some (.DestroyLocalArray la el es da)
    | _, _, _, _ => none
  | .DestroyBase =>
    match read_uint16 a.bytes 0, read_uint32 a.bytes 2, read_uint32 a.bytes 6 with
    | some op, some mo, some da => some (.DestroyBase op mo da)
    | _, _, _ => none
  | .DestroyMember =>
    match read_uint16 a.bytes 0, read_uint32 a.bytes 2, read_uint32 a.bytes 6 with
    | some op, some mo, some da => some (.DestroyMember op mo da)
    | _, _, _ => none
  | .DestroyMemberCond =>
    match read_uint16 a.bytes 0, read_uint16 a.bytes 2, read_uint32 a.bytes 4,
          read_uint16 a.bytes 8, read_uint32 a.bytes 10 with
    | some c, some op, some mo, some u, some da =>
      some (.DestroyMemberCond c op mo u da)
    | _, _, _, _, _ => none
  | .DestroyMemberArray =>
    match read_uint16 a.bytes 0, read_uint32 a.bytes 2, read_uint32 a.bytes 6,
          read_uint32 a.bytes 10, read_uint32 a.bytes 14 with
    | some op, some mo, some el, some es, some da =>
      some (.DestroyMemberArray op mo el es da)
    | _, _, _, _, _ => none
  | .DeletePointer =>
    match read_uint16 a.bytes 0, read_uint32 a.bytes 2 with
    | some op, some da => some (.DeletePointer op da)
    | _, _ => none
  | .DeletePointerCond =>
    match read_uint16 a.bytes 0, read_uint16 a.bytes 2,
          read_uint16 a.bytes 4, read_uint32 a.bytes 6 with
    | some c, some op, some u, some da => some (.DeletePointerCond c op u da)
    | _, _, _, _ => none
  | .CatchBlock =>
    match read_uint16 a.bytes 0, read_uint32 a.bytes 2,
          read_uint16 a.bytes 6, read_uint16 a.bytes 8 with
    | some u, some ct, some cpo, some ci => some (.CatchBlock u ct cpo ci)
    | _, _, _, _ => none
  | .ActiveCatchBlock =>
    (read_uint16 a.bytes 0).map (fun ci => .ActiveCatchBlock ci)
  | .Terminate => some .Terminate
  | .Specification =>
    match read_uint16 a.bytes 0, read_uint32 a.bytes 2, read_uint32 a.bytes 6 with
    | some specs, some pc, some ci =>
      (read_uint32_list a.bytes 10 specs).map
        (fun sp => .Specification specs pc ci sp)
    | _, _, _ => none
  | .CatchBlock32 =>
    match read_uint16 a.bytes 0, read_uint32 a.bytes 2,
          read_uint32 a.bytes 6, read_uint32 a.bytes 10 with
    | some u, some ct, some cpo, some ci => some (.CatchBlock32 u ct cpo ci)
    | _, _, _, _ => none

/-- The struct `PCAction` (lib.rs:458-462). -/
structure PCAction where
  start_pc : Nat
  end_pc : Nat
  action_offset : Nat
deriving DecidableEq, Repr

/-- The struct `Relocation` (lib.rs:482-485). -/
structure Relocation where
  offset : Nat
  address : Nat
deriving DecidableEq, Repr

/-- The struct `ExceptionTableData` (lib.rs:489-504). -/
structure ExceptionTableData where
  flag_val : Nat
  has_elf_vector : Bool
  large_frame : Bool
  has_frame_pointer : Bool
  saved_cr : Bool
  fpr_save_range : Nat
  gpr_save_range : Nat
  et_field : Nat
  pc_actions : List PCAction
  exception_actions : List ExceptionAction
  relocations : List Relocation
deriving DecidableEq, Repr

/-- Result of a decoding step: `ok`/`err` are the Rust `Result` cases and
`panicked` models a panic (out-of-bounds read or slice) in the source. -/
inductive ParseResult (α : Type) where
  | ok (val : α)
  | err (e : ExtabDecodeError)
  | panicked
deriving DecidableEq, Repr

/-- The payload-size computation of `ExtabDecoder::parse_action_entry`
(lib.rs:910-964): a fixed size per kind, except `Specification`, where a
16-bit "spec count" is peeked (no advance) at the cursor — i.e. at the first
payload byte — and the size is `10 + 4 * count`. `none` models the source
panicking when the peek runs past the buffer. -/
def action_size (k : ExAction) (data : List Nat) (offset : Nat) : Option Nat :=
  match k with
  | .EndOfList => some 0
  | .Branch => some 2
  | .DestroyLocal => some 6
  | .DestroyLocalCond => some 10
  | .DestroyLocalPointer => some 6
  | .DestroyLocalArray => some 10
  | .DestroyBase => some 10
  | .DestroyMember => some 10
  | .DestroyMemberCond => some 14
  | .DestroyMemberArray => some 18
  | .DeletePointer => some 6
  | .DeletePointerCond => some 10
  | .CatchBlock => some 10
  | .ActiveCatchBlock => some 2
  | .Terminate => some 0
  | .Specification => (read_uint16 data offset).map (fun c => 10 + 4 * c)
  | .CatchBlock32 => some 14

/-- `ExtabDecoder::parse_action_entry` (lib.rs:890-989) for the record that
begins at `offset`, returning the parsed record, the relocation it pushed
(if any), and the payload size, so that the caller resumes at
`offset + 2 + size`. The source mutates `self.offset` to exactly that
value. `panicked` models the source's panics: a read past the end of the
buffer, the `Specification` size peek failing, or the payload slice
`data[start_index..end_index]` running past the end. -/
def parse_action_entry (data : List Nat) (offset : Nat) :
    ParseResult (ExceptionAction × Option Relocation × Nat) :=
  match read_byte data offset with
  | none => .panicked
  | some action_type_byte =>
    let has_end_bit := decide (128 ≤ action_type_byte)
    let action_type_value := action_type_byte % 128
    match ExAction.from_int action_type_value with
    | none => .err (.InvalidActionValue action_type_value offset)
    | some action_type =>
      match read_byte data (offset + 1) with
      | none => .panicked
      | some action_param =>
        match action_size action_type data (offset + 2) with
        | none => .panicked
        | some size =>
          let start_index := offset + 2
          let end_index := start_index + size
          if end_index ≤ data.length then
            let exaction : ExceptionAction :=
              { action_offset := offset
                action_type := action_type
                action_param := action_param
                has_end_bit := has_end_bit
                bytes := (data.drop start_index).take size }
            if exaction.action_type.has_dtor_ref then
              match get_dtor_relocation exaction with
              | .noRef => .err .Internal
              | .panicked => .panicked
              | .reloc o addr =>
                .ok (exaction, some { offset := start_index + o, address := addr }, size)
            else .ok (exaction, none, size)
          else .panicked

/-- The PC-range loop of `ExtabDecoder::parse_exception_table`
(lib.rs:867-879): peek a 32-bit word at the cursor; while it is nonzero,
consume a 10-byte record (`start_pc`, 16-bit encoded range, 16-bit action
offset) and append a `PCAction`; when it is zero, stop and skip the 4-byte
terminator. Each consumed record is 4 + 2 + 2 = 8 bytes. `end_pc` is the
`u32` sum `start_pc + range_size` (explicit `% 2^32`). Returns the
accumulated ranges in buffer order and the cursor position after the
terminator; `none` models a panicking read.

`fuel` is only an artificial structural-termination bound; the caller
passes `data.length`, which is ample because every iteration consumes 8
buffer bytes (so the loop ends, by success or by a panicking read, before
the bound is reached). -/
def parse_pc_ranges (data : List Nat) (fuel offset : Nat) :
    Option (List PCAction × Nat) :=
  match fuel with
  | 0 => none
  | f + 1 =>
    match read_uint32 data offset with
    | none => none
    | some w =>
      if w = 0 then some ([], offset + 4)
      else
        match read_uint16 data (offset + 4), read_uint16 data (offset + 6) with
        | some range_enc, some act_off =>
          match parse_pc_ranges data f (offset + 8) with
          | none => none
          | some (rest, after) =>
            some ({ start_pc := w
                    end_pc := (w + range_enc * 4) % 2 ^ 32
                    action_offset := act_off } :: rest, after)
        | _, _ => none

/-- The action-record loop of `ExtabDecoder::parse_exception_table`
(lib.rs:882-885): run `parse_action_entry` repeatedly while the cursor is
before the end of the buffer, accumulating the records and the relocations
they push, both in buffer order.

`fuel` is only an artificial structural-termination bound; the caller
passes `data.length`, which is ample because every iteration consumes at
least 2 buffer bytes. -/
def parse_actions (data : List Nat) (fuel offset : Nat) :
    ParseResult (List ExceptionAction × List Relocation) :=
  match fuel with
  | 0 => .panicked
  | f + 1 =>
    if offset < data.length then
      match parse_action_entry data offset with
      | .panicked => .panicked
      | .err e => .err e
      | .ok (a, r, size) =>
        match parse_actions data f (offset + 2 + size) with
        | .panicked => .panicked
        | .err e => .err e
        | .ok (acts, relocs) =>
          .ok (a :: acts, match r with
               | some rl => rl :: relocs
               | none => relocs)
    else .ok ([], [])

/-- `ExceptionTableData::calculate_flag_values` (lib.rs:523-530) combined
with the construction of the result record: bit 1 `has_elf_vector`, bit 3
`large_frame`, bit 4 `has_frame_pointer`, bit 5 `saved_cr`, bits 6-10
`fpr_save_range`, bits 11-15 `gpr_save_range`. -/
def mk_table_data (flag_val et_field : Nat) (pcs : List PCAction)
    (acts : List ExceptionAction) (relocs : List Relocation) :
    ExceptionTableData :=
  { flag_val := flag_val
    has_elf_vector := decide (flag_val / 2 % 2 = 1)
    large_frame := decide (flag_val / 8 % 2 = 1)
    has_frame_pointer := decide (flag_val / 16 % 2 = 1)
    saved_cr := decide (flag_val / 32 % 2 = 1)
    fpr_save_range := flag_val / 64 % 32
    gpr_save_range := flag_val / 2048 % 32
    et_field := et_field
    pc_actions := pcs
    exception_actions := acts
    relocations := relocs }

/-- `ExtabDecoder::parse_exception_table` (lib.rs:845-888): length check,
header words, small-table terminator check, PC-range loop, then action
records until the end of the buffer. -/
def parse_exception_table (data : List Nat) : ParseResult ExceptionTableData :=
  if data.length < 8 then .err (.ArrayTooSmall data.length)
  else
    match read_uint16 data 0, read_uint16 data 2 with
    | some flag_val, some et_field =>
      match read_uint32 data 4 with
      | none => .panicked
      | some terminator =>
        if data.length = 8 ∧ terminator ≠ 0 then .err .InvalidSmallTableTerminator
        else
          match parse_pc_ranges data data.length 4 with
          | none => .panicked
          | some (pcs, after) =>
            match parse_actions data data.length after with
            | .panicked => .panicked
            | .err e => .err e
            | .ok (acts, relocs) =>
              .ok (mk_table_data flag_val et_field pcs acts relocs)
    | _, _ => .panicked

/-- `decode_extab` (lib.rs:995-999), the public entry point. -/
def decode_extab (data : List Nat) : ParseResult ExceptionTableData :=
  parse_exception_table data

/-- An uppercase hexadecimal digit, as Rust's `{:X}` format prints one. -/
def hexDigit (n : Nat) : Char :=
  if n < 10 then Char.ofNat (48 + n) else Char.ofNat (55 + n)

/-- Digit list of `n` in uppercase hexadecimal; `fuel` bounds the recursion
and `n + 1` is always ample. -/
def toHexCore : Nat → Nat → List Char
  | 0, _ => []
  | f + 1, n =>
    if n < 16 then [hexDigit n]
    else toHexCore f (n / 16) ++ [hexDigit (n % 16)]

/-- Rust's `{:X}`: `n` in uppercase hexadecimal. -/
def toHex (n : Nat) : String :=
  String.mk (toHexCore (n + 1) n)

/-- Rust's `{:#X}`: `0x` followed by uppercase hexadecimal. -/
def hex0x (n : Nat) : String :=
  "0x" ++ toHex n

/-- Rust's `{:0wX}`: uppercase hexadecimal zero-padded to width `w`. -/
def padHex (w n : Nat) : String :=
  String.mk (List.replicate (w - (toHexCore (n + 1) n).length) '0') ++ toHex n

/-- The per-action field rendering of `ExceptionTableData::to_string`
(lib.rs:628-804): the type-specific part of the `line` fragment built for
one record, for a given `local_reg_string` (`"FP"` or `"SP"`, chosen by the
table's `has_frame_pointer` flag). The source's `>> 7` and `(>> 6) & 1` on
the `u8` param are written `/ 128` and `/ 64 % 2`. `none` models the source
panicking inside `get_exaction_data` on a malformed payload. The stray `)`
in the register forms of `DeletePointer` and `DeletePointerCond` is the
source's own output (lib.rs:750, lib.rs:765). -/
def render_exaction_fields (a : ExceptionAction) (local_reg_string : String) :
    Option String :=
  (get_exaction_data a).map (fun d =>
    match d with
    | .EndOfList => ""
    | .Branch target_offset =>
      "Action: " ++ padHex 6 target_offset ++ "\n"
    | .DestroyLocal local_offset _ =>
      "Local: " ++ hex0x local_offset ++ "(" ++ local_reg_string ++ ")\n"
    | .DestroyLocalCond condition local_offset _ _ =>
      "Local: " ++ hex0x local_offset ++ "(" ++ local_reg_string ++ ")\n" ++
      (if a.action_param = 0 then
        "Cond: " ++ hex0x condition ++ "(" ++ local_reg_string ++ ")\n"
      else
        "Cond: r" ++ toString condition ++ "\n")
    | .DestroyLocalPointer local_pointer _ =>
      if a.action_param / 128 = 0 then
        "Pointer: " ++ hex0x local_pointer ++ "(" ++ local_reg_string ++ ")\n"
      else
        "Pointer: r" ++ toString local_pointer ++ "\n"
    | .DestroyLocalArray local_array elements element_size _ =>
      "Array: " ++ hex0x local_array ++ "(" ++ local_reg_string ++ ")\n" ++
      "Elements: " ++ toString elements ++ "\n" ++
      "Size: " ++ toString element_size ++ "\n"
    | .DestroyBase object_pointer member_offset _ =>
      if a.action_param / 128 = 0 then
        "Member: " ++ hex0x object_pointer ++ "(" ++ local_reg_string ++ ")+" ++
          hex0x member_offset ++ "\n"
      else
        "Member: " ++ hex0x member_offset ++ "(r" ++ toString object_pointer ++ ")\n"
    | .DestroyMember object_pointer member_offset _ =>
      if a.action_param / 128 = 0 then
        "Member: " ++ hex0x object_pointer ++ "(" ++ local_reg_string ++ ")+" ++
          hex0x member_offset ++ "\n"
      else
        "Member: " ++ hex0x member_offset ++ "(r" ++ toString object_pointer ++ ")\n"
    | .DestroyMemberCond condition object_pointer member_offset _ _ =>
      (if a.action_param / 64 % 2 = 0 then
        "Member: " ++ hex0x object_pointer ++ "(" ++ local_reg_string ++ ")+" ++
          hex0x member_offset ++ "\n"
      else
        "Member: " ++ hex0x member_offset ++ "(r" ++ toString object_pointer ++ ")\n") ++
      (if a.action_param / 128 = 0 then
        "Cond: " ++ hex0x condition ++ "(" ++ local_reg_string ++ ")\n"
      else
        "Cond: r" ++ toString condition ++ "\n")
    | .DestroyMemberArray object_pointer member_offset elements element_size _ =>
      (if a.action_param / 128 = 0 then
        "Member: " ++ hex0x object_pointer ++ "(" ++ local_reg_string ++ ")+0x" ++
          toString member_offset ++ "\n"
      else
        "Member: " ++ hex0x member_offset ++ "(r" ++ toString object_pointer ++ ")\n") ++
      "Elements: " ++ toString elements ++ "\n" ++
      "Size: " ++ toString element_size ++ "\n"
    | .DeletePointer object_pointer _ =>
      if a.action_param / 128 = 0 then
        "Pointer: " ++ hex0x object_pointer ++ "(" ++ local_reg_string ++ ")\n"
      else
        "Pointer: r" ++ toString object_pointer ++ ")\n"
    | .DeletePointerCond condition object_pointer _ _ =>
      (if a.action_param / 64 % 2 = 0 then
        "Pointer: " ++ hex0x object_pointer ++ "(" ++ local_reg_string ++ ")\n"
      else
        "Pointer: r" ++ toString object_pointer ++ ")\n") ++
      (if a.action_param / 128 = 0 then
        "Cond: " ++ hex0x condition ++ "(" ++ local_reg_string ++ ")\n"
      else
        "Cond: r" ++ toString condition ++ "\n")
    | .CatchBlock _ catch_type catch_pc_offset cinfo_ref =>
      "Local: " ++ hex0x cinfo_ref ++ "(" ++ local_reg_string ++ ")\n" ++
      "PC: " ++ padHex 8 catch_pc_offset ++ "\n" ++
      "catch_type_addr: " ++ padHex 8 catch_type ++ "\n"
    | .ActiveCatchBlock cinfo_ref =>
      "Local: " ++ hex0x cinfo_ref ++ "(" ++ local_reg_string ++ ")\n"
    | .Terminate => ""
    | .Specification specs pc_offset cinfo_ref _ =>
      "Local: " ++ hex0x cinfo_ref ++ "(" ++ local_reg_string ++ ")\n" ++
      "PC: " ++ padHex 8 pc_offset ++ "\n" ++
      "Types: " ++ toString specs ++ "\n"
    | .CatchBlock32 _ catch_type catch_pc_offset cinfo_ref =>
      "Local: " ++ hex0x cinfo_ref ++ "(" ++ local_reg_string ++ ")\n" ++
      "PC: " ++ padHex 8 catch_pc_offset ++ "\n" ++
      "catch_type_addr: " ++ padHex 8 catch_type ++ "\n")

/-- The fixed payload-size table of spec §4.3, as claim C1 lists it, for
every kind except the variable-size `Specification` (mapped to a dummy 0;
its size is `10 + 4 * count`). Stated from the spec's words, to be compared
with the decoder's `action_size`. -/
def spec_payload_size : ExAction → Nat
  | .EndOfList => 0
  | .Terminate => 0
  | .Branch => 2
  | .ActiveCatchBlock => 2
  | .DestroyLocal => 6
  | .DestroyLocalPointer => 6
  | .DeletePointer => 6
  | .DestroyLocalCond => 10
  | .DestroyLocalArray => 10
  | .DestroyBase => 10
  | .DestroyMember => 10
  | .DeletePointerCond => 10
  | .CatchBlock => 10
  | .DestroyMemberCond => 14
  | .CatchBlock32 => 14
  | .DestroyMemberArray => 18
  | .Specification => 0

/-- The per-kind destructor field offset into the payload, as spec §4.3 and
claim C2 list it (dummy 0 for kinds without a destructor field). Stated
from the spec's words, to be compared with the decoder's
`get_dtor_address_value_offset`. -/
def spec_dtor_offset : ExAction → Nat
  | .DestroyLocal => 2
  | .DestroyLocalPointer => 2
  | .DeletePointer => 2
  | .DestroyLocalCond => 6
  | .DestroyLocalArray => 6
  | .DestroyBase => 6
  | .DestroyMember => 6
  | .DeletePointerCond => 6
  | .DestroyMemberCond => 10
  | .DestroyMemberArray => 14
  | _ => 0

/-- Modelled from the spec (§4.4 step 5 / claim C2): the relocation a
destructor-bearing record should contribute — offset = the record's
absolute offset + 2 (type/param header) + the per-kind destructor field
offset, value = the raw 4-byte big-endian word stored at that field; `none`
for kinds without a destructor field. To be compared with the relocations
the decoder actually accumulates. -/
def expected_reloc (a : ExceptionAction) : Option Relocation :=
  if a.action_type.has_dtor_ref then
    (read_uint32 a.bytes (spec_dtor_offset a.action_type)).map
      (fun v => { offset := a.action_offset + 2 + spec_dtor_offset a.action_type
                  address := v })
  else none

/-! ### Read-helper lemmas -/

theorem read_byte_some_iff {data : List Nat} {o : Nat} :
    (∃ b, read_byte data o = some b) ↔ o < data.length := by
  constructor
  · rintro ⟨b, hb⟩
    by_contra hge
    rw [read_byte, List.getElem?_eq_none (by omega)] at hb
    simp at hb
  · intro h
    exact ⟨data[o] % 256, by rw [read_byte, List.getElem?_eq_getElem h]; rfl⟩

theorem read_byte_lt {data : List Nat} {o b : Nat} (h : read_byte data o = some b) :
    b < 256 := by
  rw [read_byte] at h
  rcases ho : data[o]? with _ | v
  · rw [ho] at h; simp at h
  · rw [ho] at h
    simp only [Option.map_some', Option.some.injEq] at h
    omega

theorem read_byte_none {data : List Nat} {o : Nat} (h : data.length ≤ o) :
    read_byte data o = none := by
  rw [read_byte, List.getElem?_eq_none h]; rfl

theorem read_byte_lt_length {data : List Nat} {o b : Nat}
    (h : read_byte data o = some b) : o < data.length :=
  read_byte_some_iff.mp ⟨b, h⟩

theorem read_uint16_some {data : List Nat} {o : Nat} (h : o + 2 ≤ data.length) :
    ∃ v, read_uint16 data o = some v ∧ v < 65536 := by
  obtain ⟨b0, h0⟩ := read_byte_some_iff.mpr (show o < data.length by omega)
  obtain ⟨b1, h1⟩ := read_byte_some_iff.mpr (show o + 1 < data.length by omega)
  have l0 := read_byte_lt h0
  have l1 := read_byte_lt h1
  exact ⟨b0 * 256 + b1, by rw [read_uint16, h0, h1], by omega⟩

theorem read_uint16_none {data : List Nat} {o : Nat} (h : data.length < o + 2) :
    read_uint16 data o = none := by
  rw [read_uint16, read_byte_none (show data.length ≤ o + 1 by omega)]
  rcases read_byte data o with _ | b <;> rfl

theorem read_uint32_some {data : List Nat} {o : Nat} (h : o + 4 ≤ data.length) :
    ∃ v, read_uint32 data o = some v ∧ v < 4294967296 := by
  obtain ⟨b0, h0⟩ := read_byte_some_iff.mpr (show o < data.length by omega)
  obtain ⟨b1, h1⟩ := read_byte_some_iff.mpr (show o + 1 < data.length by omega)
  obtain ⟨b2, h2⟩ := read_byte_some_iff.mpr (show o + 2 < data.length by omega)
  obtain ⟨b3, h3⟩ := read_byte_some_iff.mpr (show o + 3 < data.length by omega)
  have l0 := read_byte_lt h0
  have l1 := read_byte_lt h1
  have l2 := read_byte_lt h2
  have l3 := read_byte_lt h3
  exact ⟨((b0 * 256 + b1) * 256 + b2) * 256 + b3,
    by rw [read_uint32, h0, h1, h2, h3], by omega⟩

theorem read_uint32_none {data : List Nat} {o : Nat} (h : data.length < o + 4) :
    read_uint32 data o = none := by
  rw [read_uint32, read_byte_none (show data.length ≤ o + 3 by omega)]
  rcases read_byte data o with _ | b <;>
    rcases read_byte data (o + 1) with _ | b1 <;>
    rcases read_byte data (o + 2) with _ | b2 <;> rfl

theorem read_uint32_lt_length {data : List Nat} {o v : Nat}
    (h : read_uint32 data o = some v) : o + 4 ≤ data.length := by
  by_contra hge
  rw [read_uint32_none (by omega)] at h
  exact Option.noConfusion h

theorem read_uint16_lt_length {data : List Nat} {o v : Nat}
    (h : read_uint16 data o = some v) : o + 2 ≤ data.length := by
  by_contra hge
  rw [read_uint16_none (by omega)] at h
  exact Option.noConfusion h

theorem read_uint16_lt {data : List Nat} {o v : Nat}
    (h : read_uint16 data o = some v) : v < 65536 := by
  obtain ⟨w, hw, hlt⟩ := read_uint16_some (read_uint16_lt_length h)
  rw [hw] at h
  injection h with he
  omega

theorem read_uint32_lt {data : List Nat} {o v : Nat}
    (h : read_uint32 data o = some v) : v < 4294967296 := by
  obtain ⟨w, hw, hlt⟩ := read_uint32_some (read_uint32_lt_length h)
  rw [hw] at h
  injection h with he
  omega

theorem read_uint32_list_some {data : List Nat} {o n : Nat}
    (h : o + 4 * n ≤ data.length) :
    ∃ vs, read_uint32_list data o n = some vs ∧ vs.length = n := by
  induction n generalizing o with
  | zero => exact ⟨[], rfl, rfl⟩
  | succ m ih =>
    obtain ⟨v, hv, _⟩ := read_uint32_some (show o + 4 ≤ data.length by omega)
    obtain ⟨vs, hvs, hlen⟩ := ih (o := o + 4) (by omega)
    exact ⟨v :: vs, by rw [read_uint32_list, hv, hvs]; rfl, by simp [hlen]⟩

theorem read_uint32_list_none {data : List Nat} {o n : Nat} (hn : 1 ≤ n)
    (h : data.length < o + 4 * n) :
    read_uint32_list data o n = none := by
  induction n generalizing o with
  | zero => omega
  | succ m ih =>
    rcases Nat.eq_zero_or_pos m with hm | hm
    · subst hm
      rw [read_uint32_list, read_uint32_none (by omega)]
    · rw [read_uint32_list]
      rcases hv : read_uint32 data o with _ | v
      · rfl
      · rw [ih hm (by omega)]; rfl

theorem get_exaction_data_isSome {a : ExceptionAction}
    (hk : a.action_type ≠ .Specification)
    (h : a.bytes.length = spec_payload_size a.action_type) :
    (get_exaction_data a).isSome := by
  obtain ⟨off, k, param, eb, bytes⟩ := a
  simp only [ExceptionAction.bytes, ExceptionAction.action_type] at h hk ⊢
  cases k
  case EndOfList => simp [get_exaction_data]
  case Terminate => simp [get_exaction_data]
  case Branch =>
    simp only [spec_payload_size] at h
    obtain ⟨v, hv, _⟩ := read_uint16_some (show 0 + 2 ≤ bytes.length by omega)
    simp [get_exaction_data, hv]
  case ActiveCatchBlock =>
    simp only [spec_payload_size] at h
    obtain ⟨v, hv, _⟩ := read_uint16_some (show 0 + 2 ≤ bytes.length by omega)
    simp [get_exaction_data, hv]
  case DestroyLocal =>
    simp only [spec_payload_size] at h
    obtain ⟨v1, h1, _⟩ := read_uint16_some (show 0 + 2 ≤ bytes.length by omega)
    obtain ⟨v2, h2, _⟩ := read_uint32_some (show 2 + 4 ≤ bytes.length by omega)
    simp [get_exaction_data, h1, h2]
  case DestroyLocalPointer =>
    simp only [spec_payload_size] at h
    obtain ⟨v1, h1, _⟩ := read_uint16_some (show 0 + 2 ≤ bytes.length by omega)
    obtain ⟨v2, h2, _⟩ := read_uint32_some (show 2 + 4 ≤ bytes.length by omega)
    simp [get_exaction_data, h1, h2]
  case DeletePointer =>
    simp only [spec_payload_size] at h
    obtain ⟨v1, h1, _⟩ := read_uint16_some (show 0 + 2 ≤ bytes.length by omega)
    obtain ⟨v2, h2, _⟩ := read_uint32_some (show 2 + 4 ≤ bytes.length by omega)
    simp [get_exaction_data, h1, h2]
  case DestroyLocalCond =>
    simp only [spec_payload_size] at h
    obtain ⟨v1, h1, _⟩ := read_uint16_some (show 0 + 2 ≤ bytes.length by omega)
    obtain ⟨v2, h2, _⟩ := read_uint16_some (show 2 + 2 ≤ bytes.length by omega)
    obtain ⟨v3, h3, _⟩ := read_uint16_some (show 4 + 2 ≤ bytes.length by omega)
    obtain ⟨v4, h4, _⟩ := read_uint32_some (show 6 + 4 ≤ bytes.length by omega)
    simp [get_exaction_data, h1, h2, h3, h4]
  case DeletePointerCond =>
    simp only [spec_payload_size] at h
    obtain ⟨v1, h1, _⟩ := read_uint16_some (show 0 + 2 ≤ bytes.length by omega)
    obtain ⟨v2, h2, _⟩ := read_uint16_some (show 2 + 2 ≤ bytes.length by omega)
    obtain ⟨v3, h3, _⟩ := read_uint16_some (show 4 + 2 ≤ bytes.length by omega)
    obtain ⟨v4, h4, _⟩ := read_uint32_some (show 6 + 4 ≤ bytes.length by omega)
    simp [get_exaction_data, h1, h2, h3, h4]
  case DestroyLocalArray =>
    simp only [spec_payload_size] at h
    obtain ⟨v1, h1, _⟩ := read_uint16_some (show 0 + 2 ≤ bytes.length by omega)
    obtain ⟨v2, h2, _⟩ := read_uint16_some (show 2 + 2 ≤ bytes.length by omega)
    obtain ⟨v3, h3, _⟩ := read_uint16_some (show 4 + 2 ≤ bytes.length by omega)
    obtain ⟨v4, h4, _⟩ := read_uint32_some (show 6 + 4 ≤ bytes.length by omega)
    simp [get_exaction_data, h1, h2, h3, h4]
  case DestroyBase =>
    simp only [spec_payload_size] at h
    obtain ⟨v1, h1, _⟩ := read_uint16_some (show 0 + 2 ≤ bytes.length by omega)
    obtain ⟨v2, h2, _⟩ := read_uint32_some (show 2 + 4 ≤ bytes.length by omega)
    obtain ⟨v3, h3, _⟩ := read_uint32_some (show 6 + 4 ≤ bytes.length by omega)
    simp [get_exaction_data, h1, h2, h3]
  case DestroyMember =>
    simp only [spec_payload_size] at h
    obtain ⟨v1, h1, _⟩ := read_uint16_some (show 0 + 2 ≤ bytes.length by omega)
    obtain ⟨v2, h2, _⟩ := read_uint32_some (show 2 + 4 ≤ bytes.length by omega)
    obtain ⟨v3, h3, _⟩ := read_uint32_some (show 6 + 4 ≤ bytes.length by omega)
    simp [get_exaction_data, h1, h2, h3]
  case DestroyMemberCond =>
    simp only [spec_payload_size] at h
    obtain ⟨v1, h1, _⟩ := read_uint16_some (show 0 + 2 ≤ bytes.length by omega)
    obtain ⟨v2, h2, _⟩ := read_uint16_some (show 2 + 2 ≤ bytes.length by omega)
    obtain ⟨v3, h3, _⟩ := read_uint32_some (show 4 + 4 ≤ bytes.length by omega)
    obtain ⟨v4, h4, _⟩ := read_uint16_some (show 8 + 2 ≤ bytes.length by omega)
    obtain ⟨v5, h5, _⟩ := read_uint32_some (show 10 + 4 ≤ bytes.length by omega)
    simp [get_exaction_data, h1, h2, h3, h4, h5]
  case DestroyMemberArray =>
    simp only [spec_payload_size] at h
    obtain ⟨v1, h1, _⟩ := read_uint16_some (show 0 + 2 ≤ bytes.length by omega)
    obtain ⟨v2, h2, _⟩ := read_uint32_some (show 2 + 4 ≤ bytes.length by omega)
    obtain ⟨v3, h3, _⟩ := read_uint32_some (show 6 + 4 ≤ bytes.length by omega)
    obtain ⟨v4, h4, _⟩ := read_uint32_some (show 10 + 4 ≤ bytes.length by omega)
    obtain ⟨v5, h5, _⟩ := read_uint32_some (show 14 + 4 ≤ bytes.length by omega)
    simp [get_exaction_data, h1, h2, h3, h4, h5]
  case CatchBlock =>
    simp only [spec_payload_size] at h
    obtain ⟨v1, h1, _⟩ := read_uint16_some (show 0 + 2 ≤ bytes.length by omega)
    obtain ⟨v2, h2, _⟩ := read_uint32_some (show 2 + 4 ≤ bytes.length by omega)
    obtain ⟨v3, h3, _⟩ := read_uint16_some (show 6 + 2 ≤ bytes.length by omega)
    obtain ⟨v4, h4, _⟩ := read_uint16_some (show 8 + 2 ≤ bytes.length by omega)
    simp [get_exaction_data, h1, h2, h3, h4]
  case CatchBlock32 =>
    simp only [spec_payload_size] at h
    obtain ⟨v1, h1, _⟩ := read_uint16_some (show 0 + 2 ≤ bytes.length by omega)
    obtain ⟨v2, h2, _⟩ := read_uint32_some (show 2 + 4 ≤ bytes.length by omega)
    obtain ⟨v3, h3, _⟩ := read_uint32_some (show 6 + 4 ≤ bytes.length by omega)
    obtain ⟨v4, h4, _⟩ := read_uint32_some (show 10 + 4 ≤ bytes.length by omega)
    simp [get_exaction_data, h1, h2, h3, h4]
  case Specification => exact absurd rfl hk

theorem get_exaction_data_none {a : ExceptionAction}
    (hk : a.action_type ≠ .Specification)
    (h : a.bytes.length + 1 = spec_payload_size a.action_type) :
    get_exaction_data a = none := by
  obtain ⟨off, k, param, eb, bytes⟩ := a
  simp only [ExceptionAction.bytes, ExceptionAction.action_type] at h hk ⊢
  cases k
  case EndOfList => simp [spec_payload_size] at h
  case Terminate => simp [spec_payload_size] at h
  case Branch =>
    simp only [spec_payload_size] at h
    simp [get_exaction_data, read_uint16_none (show bytes.length < 0 + 2 by omega)]
  case ActiveCatchBlock =>
    simp only [spec_payload_size] at h
    simp [get_exaction_data, read_uint16_none (show bytes.length < 0 + 2 by omega)]
  case DestroyLocal =>
    simp only [spec_payload_size] at h
    obtain ⟨v1, h1, _⟩ := read_uint16_some (show 0 + 2 ≤ bytes.length by omega)
    simp [get_exaction_data, h1, read_uint32_none (show bytes.length < 2 + 4 by omega)]
  case DestroyLocalPointer =>
    simp only [spec_payload_size] at h
    obtain ⟨v1, h1, _⟩ := read_uint16_some (show 0 + 2 ≤ bytes.length by omega)
    simp [get_exaction_data, h1, read_uint32_none (show bytes.length < 2 + 4 by omega)]
  case DeletePointer =>
    simp only [spec_payload_size] at h
    obtain ⟨v1, h1, _⟩ := read_uint16_some (show 0 + 2 ≤ bytes.length by omega)
    simp [get_exaction_data, h1, read_uint32_none (show bytes.length < 2 + 4 by omega)]
  case DestroyLocalCond =>
    simp only [spec_payload_size] at h
    obtain ⟨v1, h1, _⟩ := read_uint16_some (show 0 + 2 ≤ bytes.length by omega)
    obtain ⟨v2, h2, _⟩ := read_uint16_some (show 2 + 2 ≤ bytes.length by omega)
    obtain ⟨v3, h3, _⟩ := read_uint16_some (show 4 + 2 ≤ bytes.length by omega)
    simp [get_exaction_data, h1, h2, h3,
      read_uint32_none (show bytes.length < 6 + 4 by omega)]
  case DeletePointerCond =>
    simp only [spec_payload_size] at h
    obtain ⟨v1, h1, _⟩ := read_uint16_some (show 0 + 2 ≤ bytes.length by omega)
    obtain ⟨v2, h2, _⟩ := read_uint16_some (show 2 + 2 ≤ bytes.length by omega)
    obtain ⟨v3, h3, _⟩ := read_uint16_some (show 4 + 2 ≤ bytes.length by omega)
    simp [get_exaction_data, h1, h2, h3,
      read_uint32_none (show bytes.length < 6 + 4 by omega)]
  case DestroyLocalArray =>
    simp only [spec_payload_size] at h
    obtain ⟨v1, h1, _⟩ := read_uint16_some (show 0 + 2 ≤ bytes.length by omega)
    obtain ⟨v2, h2, _⟩ := read_uint16_some (show 2 + 2 ≤ bytes.length by omega)
    obtain ⟨v3, h3, _⟩ := read_uint16_some (show 4 + 2 ≤ bytes.length by omega)
    simp [get_exaction_data, h1, h2, h3,
      read_uint32_none (show bytes.length < 6 + 4 by omega)]
  case DestroyBase =>
    simp only [spec_payload_size] at h
    obtain ⟨v1, h1, _⟩ := read_uint16_some (show 0 + 2 ≤ bytes.length by omega)
    obtain ⟨v2, h2, _⟩ := read_uint32_some (show 2 + 4 ≤ bytes.length by omega)
    simp [get_exaction_data, h1, h2,
      read_uint32_none (show bytes.length < 6 + 4 by omega)]
  case DestroyMember =>
    simp only [spec_payload_size] at h
    obtain ⟨v1, h1, _⟩ := read_uint16_some (show 0 + 2 ≤ bytes.length by omega)
    obtain ⟨v2, h2, _⟩ := read_uint32_some (show 2 + 4 ≤ bytes.length by omega)
    simp [get_exaction_data, h1, h2,
      read_uint32_none (show bytes.length < 6 + 4 by omega)]
  case DestroyMemberCond =>
    simp only [spec_payload_size] at h
    obtain ⟨v1, h1, _⟩ := read_uint16_some (show 0 + 2 ≤ bytes.length by omega)
    obtain ⟨v2, h2, _⟩ := read_uint16_some (show 2 + 2 ≤ bytes.length by omega)
    obtain ⟨v3, h3, _⟩ := read_uint32_some (show 4 + 4 ≤ bytes.length by omega)
    obtain ⟨v4, h4, _⟩ := read_uint16_some (show 8 + 2 ≤ bytes.length by omega)
    simp [get_exaction_data, h1, h2, h3, h4,
      read_uint32_none (show bytes.length < 10 + 4 by omega)]
  case DestroyMemberArray =>
    simp only [spec_payload_size] at h
    obtain ⟨v1, h1, _⟩ := read_uint16_some (show 0 + 2 ≤ bytes.length by omega)
    obtain ⟨v2, h2, _⟩ := read_uint32_some (show 2 + 4 ≤ bytes.length by omega)
    obtain ⟨v3, h3, _⟩ := read_uint32_some (show 6 + 4 ≤ bytes.length by omega)
    obtain ⟨v4, h4, _⟩ := read_uint32_some (show 10 + 4 ≤ bytes.length by omega)
    simp [get_exaction_data, h1, h2, h3, h4,
      read_uint32_none (show bytes.length < 14 + 4 by omega)]
  case CatchBlock =>
    simp only [spec_payload_size] at h
    obtain ⟨v1, h1, _⟩ := read_uint16_some (show 0 + 2 ≤ bytes.length by omega)
    obtain ⟨v2, h2, _⟩ := read_uint32_some (show 2 + 4 ≤ bytes.length by omega)
    obtain ⟨v3, h3, _⟩ := read_uint16_some (show 6 + 2 ≤ bytes.length by omega)
    simp [get_exaction_data, h1, h2, h3,
      read_uint16_none (show bytes.length < 8 + 2 by omega)]
  case CatchBlock32 =>
    simp only [spec_payload_size] at h
    obtain ⟨v1, h1, _⟩ := read_uint16_some (show 0 + 2 ≤ bytes.length by omega)
    obtain ⟨v2, h2, _⟩ := read_uint32_some (show 2 + 4 ≤ bytes.length by omega)
    obtain ⟨v3, h3, _⟩ := read_uint32_some (show 6 + 4 ≤ bytes.length by omega)
    simp [get_exaction_data, h1, h2, h3,
      read_uint32_none (show bytes.length < 10 + 4 by omega)]
  case Specification => exact absurd rfl hk

theorem get_exaction_data_kind {a : ExceptionAction} {d : ExActionData}
    (hd : get_exaction_data a = some d) : d.kind = a.action_type := by
  obtain ⟨off, k, param, eb, bytes⟩ := a
  cases k <;>
    simp only [get_exaction_data, Option.map_eq_some'] at hd <;>
    first
    | (cases hd; rfl)
    | (obtain ⟨v, hv, rfl⟩ := hd; rfl)
    | (repeat' split at hd
       all_goals first
       | exact Option.noConfusion hd
       | (cases hd; rfl)
       | (obtain ⟨v, hv, rfl⟩ := Option.map_eq_some'.mp hd; rfl))

theorem get_exaction_data_spec_some {a : ExceptionAction} {c : Nat}
    (hk : a.action_type = .Specification)
    (hc : read_uint16 a.bytes 0 = some c)
    (h : a.bytes.length = 10 + 4 * c) :
    ∃ pc ci sp, get_exaction_data a = some (.Specification c pc ci sp) ∧
      sp.length = c := by
  obtain ⟨off, k, param, eb, bytes⟩ := a
  simp only [ExceptionAction.bytes, ExceptionAction.action_type] at h hk hc ⊢
  subst hk
  obtain ⟨v2, h2, _⟩ := read_uint32_some (show 2 + 4 ≤ bytes.length by omega)
  obtain ⟨v3, h3, _⟩ := read_uint32_some (show 6 + 4 ≤ bytes.length by omega)
  obtain ⟨vs, hvs, hlen⟩ := read_uint32_list_some (show 10 + 4 * c ≤ bytes.length by omega)
  exact ⟨v2, v3, vs, by simp [get_exaction_data, hc, h2, h3, hvs], hlen⟩

theorem get_exaction_data_spec_none {a : ExceptionAction} {c : Nat}
    (hk : a.action_type = .Specification)
    (hc : read_uint16 a.bytes 0 = some c)
    (h : a.bytes.length + 1 = 10 + 4 * c) :
    get_exaction_data a = none := by
  obtain ⟨off, k, param, eb, bytes⟩ := a
  simp only [ExceptionAction.bytes, ExceptionAction.action_type] at h hk hc ⊢
  subst hk
  rcases Nat.eq_zero_or_pos c with hc0 | hc0
  · subst hc0
    obtain ⟨v2, h2, _⟩ := read_uint32_some (show 2 + 4 ≤ bytes.length by omega)
    simp [get_exaction_data, hc, h2,
      read_uint32_none (show bytes.length < 6 + 4 by omega)]
  · obtain ⟨v2, h2, _⟩ := read_uint32_some (show 2 + 4 ≤ bytes.length by omega)
    obtain ⟨v3, h3, _⟩ := read_uint32_some (show 6 + 4 ≤ bytes.length by omega)
    simp [get_exaction_data, hc, h2, h3,
      read_uint32_list_none hc0 (show bytes.length < 10 + 4 * c by omega)]

theorem from_int_none {v : Nat} (hv : 17 ≤ v) : ExAction.from_int v = none := by
  match v, hv with
  | n + 17, _ => rfl

theorem from_int_isSome {v : Nat} (hv : v ≤ 16) : (ExAction.from_int v).isSome := by
  interval_cases v <;> rfl

theorem action_size_fixed {k : ExAction} (hk : k ≠ .Specification)
    (l : List Nat) (o : Nat) :
    action_size k l o = some (spec_payload_size k) := by
  cases k <;> first | rfl | exact absurd rfl hk

theorem get_dtor_offset_eq {k : ExAction} (hk : k.has_dtor_ref = true) :
    get_dtor_address_value_offset k = some (spec_dtor_offset k) := by
  cases k <;> first | rfl | exact absurd hk (by decide)

theorem get_dtor_relocation_reloc {a : ExceptionAction} {u v : Nat}
    (h : get_dtor_relocation a = .reloc u v) :
    get_dtor_address_value_offset a.action_type = some u ∧
    read_uint32 a.bytes u = some v := by
  rw [get_dtor_relocation] at h
  by_cases hd : a.action_type.has_dtor_ref = false
  · rw [if_pos hd] at h; exact RelocResult.noConfusion h
  rw [if_neg hd] at h
  rcases ho : get_dtor_address_value_offset a.action_type with _ | u' <;>
    simp only [ho] at h
  · exact RelocResult.noConfusion h
  rcases hr : read_uint32 a.bytes u' with _ | v' <;> simp only [hr] at h
  · exact RelocResult.noConfusion h
  obtain ⟨rfl, rfl⟩ : u' = u ∧ v' = v := by
    cases h; exact ⟨rfl, rfl⟩
  exact ⟨rfl, hr⟩

theorem parse_action_entry_ok {l : List Nat} {o : Nat} {a : ExceptionAction}
    {r : Option Relocation} {s : Nat}
    (h : parse_action_entry l o = .ok (a, r, s)) :
    a.action_offset = o ∧ a.bytes.length = s ∧ r = expected_reloc a ∧
    a.action_param < 256 ∧ o + 2 + s ≤ l.length ∧
    (a.action_type.has_dtor_ref = true → r.isSome) := by
  rw [parse_action_entry] at h
  rcases hb : read_byte l o with _ | b <;> simp only [hb] at h
  · exact ParseResult.noConfusion h
  rcases hk : ExAction.from_int (b % 128) with _ | k <;> simp only [hk] at h
  · exact ParseResult.noConfusion h
  rcases hp : read_byte l (o + 1) with _ | p <;> simp only [hp] at h
  · exact ParseResult.noConfusion h
  rcases hs : action_size k l (o + 2) with _ | sz <;> simp only [hs] at h
  · exact ParseResult.noConfusion h
  by_cases hle : o + 2 + sz ≤ l.length
  · rw [if_pos hle] at h
    by_cases hd : k.has_dtor_ref = true
    · simp only [hd, if_true] at h
      rcases hr : get_dtor_relocation
          { action_offset := o, action_type := k, action_param := p,
            has_end_bit := decide (128 ≤ b),
            bytes := (l.drop (o + 2)).take sz } with _ | _ | ⟨u, v⟩ <;>
        simp only [hr] at h
      · exact ParseResult.noConfusion h
      · exact ParseResult.noConfusion h
      rw [ParseResult.ok.injEq, Prod.mk.injEq, Prod.mk.injEq] at h
      obtain ⟨rfl, rfl, rfl⟩ := h
      obtain ⟨hu, hv⟩ := get_dtor_relocation_reloc hr
      refine ⟨rfl, ?_, ?_, read_byte_lt hp, hle, fun hdt => rfl⟩
      · simp only [List.length_take, List.length_drop]
        omega
      · rw [get_dtor_offset_eq hd] at hu
        injection hu with hu
        subst hu
        dsimp only at hv
        simp [expected_reloc, hd, hv]
    · rw [Bool.not_eq_true] at hd
      simp only [hd, Bool.false_eq_true, if_false] at h
      rw [ParseResult.ok.injEq, Prod.mk.injEq, Prod.mk.injEq] at h
      obtain ⟨rfl, rfl, rfl⟩ := h
      refine ⟨rfl, ?_, ?_, read_byte_lt hp, hle,
        fun hdt => by dsimp only at hdt; rw [hd] at hdt; exact Bool.noConfusion hdt⟩
      · simp only [List.length_take, List.length_drop]
        omega
      · simp [expected_reloc, hd]
  · rw [if_neg hle] at h
    exact ParseResult.noConfusion h

theorem get_dtor_relocation_noRef {a : ExceptionAction}
    (h : get_dtor_relocation a = .noRef) : a.action_type.has_dtor_ref = false := by
  by_contra hd
  rw [Bool.not_eq_false] at hd
  rw [get_dtor_relocation, if_neg (by simp [hd]), get_dtor_offset_eq hd] at h
  rcases hr : read_uint32 a.bytes (spec_dtor_offset a.action_type) with _ | v <;>
    simp only [hr] at h <;> exact RelocResult.noConfusion h

theorem parse_action_entry_not_internal {l : List Nat} {o : Nat} :
    parse_action_entry l o ≠ .err .Internal := by
  intro h
  rw [parse_action_entry] at h
  rcases hb : read_byte l o with _ | b <;> simp only [hb] at h
  · exact ParseResult.noConfusion h
  rcases hk : ExAction.from_int (b % 128) with _ | k <;> simp only [hk] at h
  · injection h with h
    exact ExtabDecodeError.noConfusion h
  rcases hp : read_byte l (o + 1) with _ | p <;> simp only [hp] at h
  · exact ParseResult.noConfusion h
  rcases hs : action_size k l (o + 2) with _ | sz <;> simp only [hs] at h
  · exact ParseResult.noConfusion h
  by_cases hle : o + 2 + sz ≤ l.length
  · rw [if_pos hle] at h
    by_cases hd : k.has_dtor_ref = true
    · simp only [hd, if_true] at h
      rcases hr : get_dtor_relocation
          { action_offset := o, action_type := k, action_param := p,
            has_end_bit := decide (128 ≤ b),
            bytes := (l.drop (o + 2)).take sz } with _ | _ | ⟨u, v⟩ <;>
        simp only [hr] at h
      · have hfalse := get_dtor_relocation_noRef hr
        dsimp only at hfalse
        rw [hfalse] at hd
        exact Bool.noConfusion hd
      · exact ParseResult.noConfusion h
      · exact ParseResult.noConfusion h
    · rw [Bool.not_eq_true] at hd
      simp only [hd, Bool.false_eq_true, if_false] at h
      exact ParseResult.noConfusion h
  · rw [if_neg hle] at h
    exact ParseResult.noConfusion h

theorem parse_actions_relocs {l : List Nat} : ∀ {f o : Nat}
    {acts : List ExceptionAction} {relocs : List Relocation},
    parse_actions l f o = .ok (acts, relocs) →
    relocs = acts.filterMap expected_reloc := by
  intro f
  induction f with
  | zero =>
    intro o acts relocs h
    exact ParseResult.noConfusion h
  | succ f ih =>
    intro o acts relocs h
    rw [parse_actions] at h
    by_cases ho : o < l.length
    · rw [if_pos ho] at h
      rcases he : parse_action_entry l o with ⟨a, r, sz⟩ | e | _ <;>
        simp only [he] at h
      · rcases hrec : parse_actions l f (o + 2 + sz) with ⟨acts', relocs'⟩ | e | _ <;>
          simp only [hrec] at h
        · rw [ParseResult.ok.injEq, Prod.mk.injEq] at h
          obtain ⟨rfl, rfl⟩ := h
          have hr := (parse_action_entry_ok he).2.2.1
          rw [List.filterMap_cons, ← hr, ← ih hrec]
          cases r <;> rfl
        · exact ParseResult.noConfusion h
        · exact ParseResult.noConfusion h
      · exact ParseResult.noConfusion h
      · exact ParseResult.noConfusion h
    · rw [if_neg ho] at h
      rw [ParseResult.ok.injEq, Prod.mk.injEq] at h
      obtain ⟨rfl, rfl⟩ := h
      rfl

theorem parse_actions_not_internal {l : List Nat} : ∀ {f o : Nat},
    parse_actions l f o ≠ .err .Internal := by
  intro f
  induction f with
  | zero => intro o h; exact ParseResult.noConfusion h
  | succ f ih =>
    intro o h
    rw [parse_actions] at h
    by_cases ho : o < l.length
    · rw [if_pos ho] at h
      rcases he : parse_action_entry l o with ⟨a, r, sz⟩ | e | _ <;>
        simp only [he] at h
      · rcases hrec : parse_actions l f (o + 2 + sz) with ⟨acts', relocs'⟩ | e | _ <;>
          simp only [hrec] at h
        · exact ParseResult.noConfusion h
        · injection h with h
          subst h
          exact ih hrec
        · exact ParseResult.noConfusion h
      · injection h with h
        subst h
        exact parse_action_entry_not_internal he
      · exact ParseResult.noConfusion h
    · rw [if_neg ho] at h
      exact ParseResult.noConfusion h

theorem parse_pc_ranges_zero {l : List Nat} {f o : Nat}
    (h : read_uint32 l o = some 0) :
    parse_pc_ranges l (f + 1) o = some ([], o + 4) := by
  simp [parse_pc_ranges, h]

theorem parse_pc_ranges_step {l : List Nat} {f o w e t : Nat}
    (hw : read_uint32 l o = some w) (hnz : w ≠ 0)
    (he : read_uint16 l (o + 4) = some e) (ht : read_uint16 l (o + 6) = some t) :
    parse_pc_ranges l (f + 1) o =
      match parse_pc_ranges l f (o + 8) with
      | none => none
      | some (rest, c) =>
        some ({ start_pc := w, end_pc := (w + e * 4) % 2 ^ 32,
                action_offset := t } :: rest, c) := by
  simp [parse_pc_ranges, hw, hnz, he, ht]

theorem parse_pc_ranges_mem {l : List Nat} : ∀ {f o : Nat}
    {pcs : List PCAction} {c : Nat},
    parse_pc_ranges l f o = some (pcs, c) →
    ∀ q ∈ pcs, ∃ e, e < 65536 ∧ q.start_pc < 4294967296 ∧
      q.end_pc = (q.start_pc + e * 4) % 2 ^ 32 := by
  intro f
  induction f with
  | zero =>
    intro o pcs c h
    exact Option.noConfusion h
  | succ f ih =>
    intro o pcs c h
    rw [parse_pc_ranges] at h
    rcases hw : read_uint32 l o with _ | w <;> simp only [hw] at h
    · exact Option.noConfusion h
    by_cases hz : w = 0
    · rw [if_pos hz] at h
      injection h with h
      rw [Prod.mk.injEq] at h
      obtain ⟨rfl, rfl⟩ := h
      intro q hq
      exact absurd hq (List.not_mem_nil q)
    · rw [if_neg hz] at h
      rcases he : read_uint16 l (o + 4) with _ | e <;> simp only [he] at h
      · exact Option.noConfusion h
      rcases ht : read_uint16 l (o + 6) with _ | t <;> simp only [ht] at h
      · exact Option.noConfusion h
      rcases hrec : parse_pc_ranges l f (o + 8) with _ | ⟨rest, c'⟩ <;>
        simp only [hrec] at h
      · exact Option.noConfusion h
      injection h with h
      rw [Prod.mk.injEq] at h
      obtain ⟨rfl, rfl⟩ := h
      intro q hq
      rcases List.mem_cons.mp hq with rfl | hq'
      · exact ⟨e, read_uint16_lt he, read_uint32_lt hw, rfl⟩
      · exact ih hrec q hq'

theorem parse_exception_table_ok {l : List Nat} {t : ExceptionTableData}
    (h : parse_exception_table l = .ok t) :
    ∃ fv ef pcs c acts relocs,
      read_uint16 l 0 = some fv ∧ read_uint16 l 2 = some ef ∧
      parse_pc_ranges l l.length 4 = some (pcs, c) ∧
      parse_actions l l.length c = .ok (acts, relocs) ∧
      t = mk_table_data fv ef pcs acts relocs := by
  rw [parse_exception_table] at h
  by_cases h8 : l.length < 8
  · rw [if_pos h8] at h
    exact ParseResult.noConfusion h
  rw [if_neg h8] at h
  rcases h0 : read_uint16 l 0 with _ | fv <;> simp only [h0] at h
  · exact ParseResult.noConfusion h
  rcases h2 : read_uint16 l 2 with _ | ef <;> simp only [h2] at h
  · exact ParseResult.noConfusion h
  rcases h4 : read_uint32 l 4 with _ | w <;> simp only [h4] at h
  · exact ParseResult.noConfusion h
  by_cases hsmall : l.length = 8 ∧ w ≠ 0
  · rw [if_pos hsmall] at h
    exact ParseResult.noConfusion h
  rw [if_neg hsmall] at h
  rcases hpc : parse_pc_ranges l l.length 4 with _ | ⟨pcs, c⟩ <;>
    simp only [hpc] at h
  · exact ParseResult.noConfusion h
  rcases ha : parse_actions l l.length c with ⟨acts, relocs⟩ | e | _ <;>
    simp only [ha] at h
  · injection h with h
    exact ⟨fv, ef, pcs, c, acts, relocs, rfl, rfl, rfl, ha, h.symm⟩
  · exact ParseResult.noConfusion h
  · exact ParseResult.noConfusion h

theorem parse_exception_table_not_internal {l : List Nat} :
    parse_exception_table l ≠ .err .Internal := by
  intro h
  rw [parse_exception_table] at h
  by_cases h8 : l.length < 8
  · rw [if_pos h8] at h
    injection h with h
    exact ExtabDecodeError.noConfusion h
  rw [if_neg h8] at h
  rcases h0 : read_uint16 l 0 with _ | fv <;> simp only [h0] at h
  · exact ParseResult.noConfusion h
  rcases h2 : read_uint16 l 2 with _ | ef <;> simp only [h2] at h
  · exact ParseResult.noConfusion h
  rcases h4 : read_uint32 l 4 with _ | w <;> simp only [h4] at h
  · exact ParseResult.noConfusion h
  by_cases hsmall : l.length = 8 ∧ w ≠ 0
  · rw [if_pos hsmall] at h
    injection h with h
    exact ExtabDecodeError.noConfusion h
  rw [if_neg hsmall] at h
  rcases hpc : parse_pc_ranges l l.length 4 with _ | ⟨pcs, c⟩ <;>
    simp only [hpc] at h
  · exact ParseResult.noConfusion h
  rcases ha : parse_actions l l.length c with ⟨acts, relocs⟩ | e | _ <;>
    simp only [ha] at h
  · exact ParseResult.noConfusion h
  · injection h with h
    subst h
    exact parse_actions_not_internal ha
  · exact ParseResult.noConfusion h

theorem parse_actions_mem_dtor {l : List Nat} : ∀ {f o : Nat}
    {acts : List ExceptionAction} {relocs : List Relocation},
    parse_actions l f o = .ok (acts, relocs) →
    ∀ a ∈ acts, a.action_type.has_dtor_ref = true → (expected_reloc a).isSome := by
  intro f
  induction f with
  | zero =>
    intro o acts relocs h
    exact ParseResult.noConfusion h
  | succ f ih =>
    intro o acts relocs h
    rw [parse_actions] at h
    by_cases ho : o < l.length
    · rw [if_pos ho] at h
      rcases he : parse_action_entry l o with ⟨a, r, sz⟩ | e | _ <;>
        simp only [he] at h
      · rcases hrec : parse_actions l f (o + 2 + sz) with ⟨acts', relocs'⟩ | e | _ <;>
          simp only [hrec] at h
        · rw [ParseResult.ok.injEq, Prod.mk.injEq] at h
          obtain ⟨rfl, rfl⟩ := h
          intro x hx hdt
          rcases List.mem_cons.mp hx with rfl | hx'
          · obtain ⟨_, _, hr, _, _, hsome⟩ := parse_action_entry_ok he
            rw [← hr]
            exact hsome hdt
          · exact ih hrec x hx' hdt
        · exact ParseResult.noConfusion h
        · exact ParseResult.noConfusion h
      · exact ParseResult.noConfusion h
      · exact ParseResult.noConfusion h
    · rw [if_neg ho] at h
      rw [ParseResult.ok.injEq, Prod.mk.injEq] at h
      obtain ⟨rfl, rfl⟩ := h
      intro x hx
      exact absurd hx (List.not_mem_nil x)

/-! ### Claim theorems -/

/-- C1: for every `ActionKind`, the decoder consumes as the record's opaque
payload exactly the size given in the §4.3 table (0/2/6/10/14/18 per kind,
recorded in `spec_payload_size`; for `Specification` the 16-bit count is
peeked at the cursor and the size is `10 + 4 * count`, so `count = 3` gives
exactly 22 payload bytes), and `get_exaction_data` re-parses such a payload
into exactly the documented field set with no leftover or missing bytes: it
succeeds on a payload of exactly the documented size, fails on one a single
byte shorter, and always yields the variant whose kind matches the record's
tag. -/
theorem c1_payload_sizes_and_reparse :
    (∀ (k : ExAction) (l : List Nat) (o : Nat), k ≠ .Specification →
       action_size k l o = some (spec_payload_size k)) ∧
    (∀ (l : List Nat) (o c : Nat), read_uint16 l o = some c →
       action_size .Specification l o = some (10 + 4 * c)) ∧
    (∀ (l : List Nat) (o : Nat), read_uint16 l o = some 3 →
       action_size .Specification l o = some 22) ∧
    (∀ a : ExceptionAction, a.action_type ≠ .Specification →
       a.bytes.length = spec_payload_size a.action_type →
       (get_exaction_data a).isSome) ∧
    (∀ a : ExceptionAction, a.action_type ≠ .Specification →
       a.bytes.length + 1 = spec_payload_size a.action_type →
       get_exaction_data a = none) ∧
    (∀ (a : ExceptionAction) (d : ExActionData), get_exaction_data a = some d →
       d.kind = a.action_type) ∧
    (∀ (a : ExceptionAction) (c : Nat), a.action_type = .Specification →
       read_uint16 a.bytes 0 = some c → a.bytes.length = 10 + 4 * c →
       ∃ pc ci sp, get_exaction_data a = some (.Specification c pc ci sp) ∧
         sp.length = c) ∧
    (∀ (a : ExceptionAction) (c : Nat), a.action_type = .Specification →
       read_uint16 a.bytes 0 = some c → a.bytes.length + 1 = 10 + 4 * c →
       get_exaction_data a = none) :=
  ⟨fun _ l o hk => action_size_fixed hk l o,
   fun _ _ _ hc => by simp [action_size, hc],
   fun _ _ hc => by simp [action_size, hc],
   fun _ hk h => get_exaction_data_isSome hk h,
   fun _ hk h => get_exaction_data_none hk h,
   fun _ _ hd => get_exaction_data_kind hd,
   fun _ _ hk hc h => get_exaction_data_spec_some hk hc h,
   fun _ _ hk hc h => get_exaction_data_spec_none hk hc h⟩

/-- Witness for C1: the `Specification` size at a peeked count of 3 is 22,
and a `DestroyLocal` payload of exactly 6 bytes re-parses while one of 5
bytes does not. -/
theorem c1_witness :
    action_size .Specification [0, 3] 0 = some 22 ∧
    (get_exaction_data ⟨0, .DestroyLocal, 0, false, [0, 16, 0, 0, 0, 42]⟩).isSome ∧
    get_exaction_data ⟨0, .DestroyLocal, 0, false, [0, 16, 0, 0, 0]⟩ = none :=
  ⟨c1_payload_sizes_and_reparse.2.2.1 [0, 3] 0 (by decide),
   c1_payload_sizes_and_reparse.2.2.2.1 _ (by decide) (by decide),
   c1_payload_sizes_and_reparse.2.2.2.2.1 _ (by decide) (by decide)⟩

/-- C2: a successfully decoded table carries exactly one relocation per
destructor-bearing record (every kind except the seven listed ones), in
record order: the relocation list is the in-order `filterMap` of
`expected_reloc` over the records, where `expected_reloc` places the
offset at record offset + 2 + the per-kind field offset of
`spec_dtor_offset` and takes the raw 4-byte big-endian value stored there;
every destructor-bearing record contributes one (`isSome`), and for
`DestroyLocal` the offset is record offset + 4. -/
theorem c2_relocations :
    (∀ k : ExAction, k.has_dtor_ref = true ↔
       k ∉ ([.EndOfList, .Branch, .CatchBlock, .ActiveCatchBlock, .Terminate,
             .Specification, .CatchBlock32] : List ExAction)) ∧
    (∀ k : ExAction, k.has_dtor_ref = true →
       get_dtor_address_value_offset k = some (spec_dtor_offset k)) ∧
    (∀ (l : List Nat) (t : ExceptionTableData), parse_exception_table l = .ok t →
       t.relocations = t.exception_actions.filterMap expected_reloc ∧
       ∀ a ∈ t.exception_actions, a.action_type.has_dtor_ref = true →
         (expected_reloc a).isSome) ∧
    (∀ a : ExceptionAction, a.action_type = .DestroyLocal →
       expected_reloc a = (read_uint32 a.bytes 2).map
         (fun v => { offset := a.action_offset + 4, address := v })) := by
  refine ⟨fun k => by cases k <;> decide, fun _ hk => get_dtor_offset_eq hk, ?_, ?_⟩
  · intro l t h
    obtain ⟨fv, ef, pcs, c, acts, relocs, _, _, _, ha, rfl⟩ :=
      parse_exception_table_ok h
    exact ⟨parse_actions_relocs ha, fun a ha' => parse_actions_mem_dtor ha a ha'⟩
  · intro a ha
    rcases hr : read_uint32 a.bytes 2 with _ | v <;>
      simp [expected_reloc, ha, hr, ExAction.has_dtor_ref, spec_dtor_offset]

/-- Witness for C2 on a concrete decode: one `DestroyLocal` record at
offset 8 yields the single relocation at offset 12 = 8 + 4 with the raw
word stored in its destructor field. -/
theorem c2_witness :
    (mk_table_data 0 0 [] [⟨8, .DestroyLocal, 0, false, [0, 16, 0, 0, 0, 42]⟩]
       [⟨12, 42⟩]).relocations =
      (mk_table_data 0 0 [] [⟨8, .DestroyLocal, 0, false, [0, 16, 0, 0, 0, 42]⟩]
       [⟨12, 42⟩]).exception_actions.filterMap expected_reloc :=
  ((c2_relocations.2.2.1 ([0, 0, 0, 0] ++ [0, 0, 0, 0] ++ [2, 0, 0, 16, 0, 0, 0, 42])
      _ (by decide)).1)

/-- C6: every buffer shorter than 8 bytes is rejected with `ArrayTooSmall`
carrying exactly the buffer's length. -/
theorem c6_array_too_small :
    ∀ l : List Nat, l.length < 8 →
      parse_exception_table l = .err (.ArrayTooSmall l.length) := by
  intro l h
  rw [parse_exception_table, if_pos h]

/-- Witness for C6: the empty buffer. -/
theorem c6_witness : parse_exception_table [] = .err (.ArrayTooSmall 0) :=
  c6_array_too_small [] (by decide)

/-- C10: the defensive `Internal` error is unreachable — every
destructor-bearing kind has a known destructor field offset, and no input
makes `parse_exception_table` return `Internal`. -/
theorem c10_no_internal :
    (∀ k : ExAction, k.has_dtor_ref = true →
       (get_dtor_address_value_offset k).isSome) ∧
    (∀ l : List Nat, parse_exception_table l ≠ .err .Internal) :=
  ⟨fun _ hk => by rw [get_dtor_offset_eq hk]; rfl,
   fun _ => parse_exception_table_not_internal⟩

/-- Witness for C10 at concrete inputs. -/
theorem c10_witness :
    (get_dtor_address_value_offset .DestroyLocal).isSome ∧
    parse_exception_table [0, 0, 0, 0, 0, 0, 0, 0] ≠ .err .Internal :=
  ⟨c10_no_internal.1 .DestroyLocal rfl, c10_no_internal.2 [0, 0, 0, 0, 0, 0, 0, 0]⟩

/-- C3 (amended): the PC-range decoder peeks a 32-bit big-endian word at
the cursor; while it is nonzero it consumes an 8-byte record (`start_pc`
u32, `encoded_range` u16 with `end_pc` the u32 value of
`start_pc + encoded_range * 4`, `action_offset` u16 widened) and appends a
`PcRange` in buffer order; when the peeked word is zero it stops without
consuming it as a range and advances exactly 4 bytes past the terminator,
so a zero word followed by nonzero action-record bytes ends the range list
and the subsequent bytes are parsed as action records. -/
theorem c3_pc_range_loop :
    (∀ (l : List Nat) (f o : Nat), read_uint32 l o = some 0 →
       parse_pc_ranges l (f + 1) o = some ([], o + 4)) ∧
    (∀ (l : List Nat) (f o w e t : Nat), read_uint32 l o = some w → w ≠ 0 →
       read_uint16 l (o + 4) = some e → read_uint16 l (o + 6) = some t →
       parse_pc_ranges l (f + 1) o =
         match parse_pc_ranges l f (o + 8) with
         | none => none
         | some (rest, c) =>
           some ({ start_pc := w, end_pc := (w + e * 4) % 2 ^ 32,
                   action_offset := t } :: rest, c)) ∧
    (parse_exception_table ([0, 0, 0, 0] ++ [0, 0, 0, 0] ++ [1, 0, 0, 5]) =
       .ok (mk_table_data 0 0 [] [⟨8, .Branch, 0, false, [0, 5]⟩] [])) :=
  ⟨fun _ _ _ h => parse_pc_ranges_zero h,
   fun _ _ _ _ _ _ hw hnz he ht => parse_pc_ranges_step hw hnz he ht,
   by decide⟩

/-- Counterexample to C3 as stated: a PC-range record is 8 bytes
(u32 + u16 + u16), not 10. In this 16-byte buffer the single record
occupies offsets 4-12 and the terminator offsets 12-16, so the loop ends
with the cursor at 16 = 4 + 8 + 4; under the claim's 10-byte record the
cursor would be 18 = 4 + 10 + 4, past the end of the buffer. -/
theorem c3_counterexample :
    parse_pc_ranges [0, 0, 0, 0, 0, 0, 16, 0, 0, 2, 0, 0, 0, 0, 0, 0] 16 4 =
      some ([{ start_pc := 4096, end_pc := 4104, action_offset := 0 }], 16) ∧
    (4 : Nat) + 8 + 4 = 16 ∧ (4 : Nat) + 10 + 4 ≠ 16 := by
  decide

/-- Witness for C3 at concrete inputs: a zero peek stops and consumes only
the terminator, and a nonzero peek consumes one 8-byte record. -/
theorem c3_witness :
    parse_pc_ranges [0, 0, 0, 0] 1 0 = some ([], 4) ∧
    parse_pc_ranges [0, 0, 32, 0, 0, 3, 0, 1, 0, 0, 0, 0] 12 0 =
      match parse_pc_ranges [0, 0, 32, 0, 0, 3, 0, 1, 0, 0, 0, 0] 11 8 with
      | none => none
      | some (rest, c) =>
        some ({ start_pc := 8192, end_pc := 8204, action_offset := 1 } :: rest, c) :=
  ⟨c3_pc_range_loop.1 [0, 0, 0, 0] 0 0 (by decide),
   c3_pc_range_loop.2.1 [0, 0, 32, 0, 0, 3, 0, 1, 0, 0, 0, 0] 11 0 8192 3 1
     (by decide) (by decide) (by decide) (by decide)⟩

/-- C4: a 7-bit action tag outside 0-16 makes the action loop fail
immediately with `InvalidActionValue` carrying the tag and the record's
absolute offset; `from_int` accepts exactly 0-16; and end-to-end, a tag of
17 at offset 8 aborts the whole decode with that single error value. -/
theorem c4_invalid_action_value :
    (∀ v : Nat, 17 ≤ v → ExAction.from_int v = none) ∧
    (∀ v : Nat, v ≤ 16 → (ExAction.from_int v).isSome) ∧
    (∀ (l : List Nat) (f o b : Nat), read_byte l o = some b → 17 ≤ b % 128 →
       parse_actions l (f + 1) o = .err (.InvalidActionValue (b % 128) o)) ∧
    (parse_exception_table ([0, 0, 0, 0] ++ [0, 0, 0, 0] ++ [17, 0]) =
       .err (.InvalidActionValue 17 8)) := by
  refine ⟨fun _ hv => from_int_none hv, fun _ hv => from_int_isSome hv, ?_, by decide⟩
  intro l f o b hb h17
  rw [parse_actions, if_pos (read_byte_lt_length hb), parse_action_entry]
  simp [hb, from_int_none h17]

/-- Witness for C4: tag byte 17 at offset 0. -/
theorem c4_witness :
    parse_actions [17, 0] 1 0 = .err (.InvalidActionValue 17 0) :=
  c4_invalid_action_value.2.2.1 [17, 0] 0 0 17 (by decide) (by decide)

/-- C5: for an exactly-8-byte buffer, a nonzero word after the header
fails the decode with `InvalidSmallTableTerminator`, and a zero word
decodes to a table with empty `pc_actions`, `exception_actions` and
`relocations`. -/
theorem c5_small_table :
    ∀ (l : List Nat) (w : Nat), l.length = 8 → read_uint32 l 4 = some w →
      (w ≠ 0 → parse_exception_table l = .err .InvalidSmallTableTerminator) ∧
      (w = 0 → ∃ t, parse_exception_table l = .ok t ∧ t.pc_actions = [] ∧
        t.exception_actions = [] ∧ t.relocations = []) := by
  intro l w h8 hw
  obtain ⟨fv, h0, _⟩ := read_uint16_some (show 0 + 2 ≤ l.length by omega)
  obtain ⟨ef, h2, _⟩ := read_uint16_some (show 2 + 2 ≤ l.length by omega)
  constructor
  · intro hnz
    rw [parse_exception_table, if_neg (by omega)]
    simp only [h0, h2, hw]
    rw [if_pos ⟨h8, hnz⟩]
  · intro hz
    subst hz
    rw [parse_exception_table, if_neg (by omega)]
    simp only [h0, h2, hw]
    rw [if_neg (by simp)]
    have hpc : parse_pc_ranges l l.length 4 = some ([], 8) := by
      rw [h8]
      exact parse_pc_ranges_zero hw
    have hact : parse_actions l l.length 8 = .ok ([], []) := by
      rw [h8, parse_actions, if_neg (by omega)]
    simp only [hpc, hact]
    exact ⟨_, rfl, rfl, rfl, rfl⟩

/-- Witness for C5: both 8-byte outcomes at concrete buffers. -/
theorem c5_witness :
    parse_exception_table [0, 0, 0, 0, 0, 0, 0, 1] =
      .err .InvalidSmallTableTerminator ∧
    ∃ t, parse_exception_table [0, 0, 0, 0, 0, 0, 0, 0] = .ok t ∧
      t.pc_actions = [] ∧ t.exception_actions = [] ∧ t.relocations = [] :=
  ⟨(c5_small_table [0, 0, 0, 0, 0, 0, 0, 1] 1 (by decide) (by decide)).1 (by decide),
   (c5_small_table [0, 0, 0, 0, 0, 0, 0, 0] 0 (by decide) (by decide)).2 rfl⟩

theorem div128_eq_zero_iff {p : Nat} (hp : p < 256) :
    p / 128 = 0 ↔ p.testBit 7 = false := by
  rw [Nat.testBit_to_div_mod]
  simp only [decide_eq_false_iff_not]
  omega

theorem div64_mod2_eq_zero_iff {p : Nat} :
    p / 64 % 2 = 0 ↔ p.testBit 6 = false := by
  rw [Nat.testBit_to_div_mod]
  simp only [decide_eq_false_iff_not]
  omega

/-- C7 (amended): the renderer resolves the polymorphic addressing fields
by bits of `param` — bit 7 for the pointer/member field of
`DestroyLocalPointer`, `DestroyBase`, `DestroyMember`, `DestroyMemberArray`
and `DeletePointer` (0 = frame-offset form, 1 = register form); bit 6 for
the member/pointer field and bit 7, independently, for the condition field
of `DestroyMemberCond` and `DeletePointerCond`; but for `DestroyLocalCond`
the condition field is rendered in frame-offset form exactly when the whole
`param` byte equals 0 (not when bit 0 is 0), register form otherwise. -/
theorem c7_addressing_modes :
    (∀ (a : ExceptionAction) (g : String) (x y : Nat), a.action_param < 256 →
       get_exaction_data a = some (.DestroyLocalPointer x y) →
       render_exaction_fields a g = some (
         if a.action_param.testBit 7 = false then
           "Pointer: " ++ hex0x x ++ "(" ++ g ++ ")\n"
         else "Pointer: r" ++ toString x ++ "\n")) ∧
    (∀ (a : ExceptionAction) (g : String) (x m y : Nat), a.action_param < 256 →
       get_exaction_data a = some (.DestroyBase x m y) →
       render_exaction_fields a g = some (
         if a.action_param.testBit 7 = false then
           "Member: " ++ hex0x x ++ "(" ++ g ++ ")+" ++ hex0x m ++ "\n"
         else "Member: " ++ hex0x m ++ "(r" ++ toString x ++ ")\n")) ∧
    (∀ (a : ExceptionAction) (g : String) (x m y : Nat), a.action_param < 256 →
       get_exaction_data a = some (.DestroyMember x m y) →
       render_exaction_fields a g = some (
         if a.action_param.testBit 7 = false then
           "Member: " ++ hex0x x ++ "(" ++ g ++ ")+" ++ hex0x m ++ "\n"
         else "Member: " ++ hex0x m ++ "(r" ++ toString x ++ ")\n")) ∧
    (∀ (a : ExceptionAction) (g : String) (x m n z y : Nat), a.action_param < 256 →
       get_exaction_data a = some (.DestroyMemberArray x m n z y) →
       render_exaction_fields a g = some (
         (if a.action_param.testBit 7 = false then
           "Member: " ++ hex0x x ++ "(" ++ g ++ ")+0x" ++ toString m ++ "\n"
         else "Member: " ++ hex0x m ++ "(r" ++ toString x ++ ")\n") ++
         "Elements: " ++ toString n ++ "\n" ++ "Size: " ++ toString z ++ "\n")) ∧
    (∀ (a : ExceptionAction) (g : String) (x y : Nat), a.action_param < 256 →
       get_exaction_data a = some (.DeletePointer x y) →
       render_exaction_fields a g = some (
         if a.action_param.testBit 7 = false then
           "Pointer: " ++ hex0x x ++ "(" ++ g ++ ")\n"
         else "Pointer: r" ++ toString x ++ ")\n")) ∧
    (∀ (a : ExceptionAction) (g : String) (c x m u y : Nat), a.action_param < 256 →
       get_exaction_data a = some (.DestroyMemberCond c x m u y) →
       render_exaction_fields a g = some (
         (if a.action_param.testBit 6 = false then
           "Member: " ++ hex0x x ++ "(" ++ g ++ ")+" ++ hex0x m ++ "\n"
         else "Member: " ++ hex0x m ++ "(r" ++ toString x ++ ")\n") ++
         (if a.action_param.testBit 7 = false then
           "Cond: " ++ hex0x c ++ "(" ++ g ++ ")\n"
         else "Cond: r" ++ toString c ++ "\n"))) ∧
    (∀ (a : ExceptionAction) (g : String) (c x u y : Nat), a.action_param < 256 →
       get_exaction_data a = some (.DeletePointerCond c x u y) →
       render_exaction_fields a g = some (
         (if a.action_param.testBit 6 = false then
           "Pointer: " ++ hex0x x ++ "(" ++ g ++ ")\n"
         else "Pointer: r" ++ toString x ++ ")\n") ++
         (if a.action_param.testBit 7 = false then
           "Cond: " ++ hex0x c ++ "(" ++ g ++ ")\n"
         else "Cond: r" ++ toString c ++ "\n"))) ∧
    (∀ (a : ExceptionAction) (g : String) (c x u y : Nat),
       get_exaction_data a = some (.DestroyLocalCond c x u y) →
       render_exaction_fields a g = some (
         "Local: " ++ hex0x x ++ "(" ++ g ++ ")\n" ++
         (if a.action_param = 0 then "Cond: " ++ hex0x c ++ "(" ++ g ++ ")\n"
          else "Cond: r" ++ toString c ++ "\n"))) := by
  refine ⟨?_, ?_, ?_, ?_, ?_, ?_, ?_, ?_⟩
  · intro a g x y hp hd
    rw [render_exaction_fields, hd]
    simp only [Option.map_some', div128_eq_zero_iff hp]
  · intro a g x m y hp hd
    rw [render_exaction_fields, hd]
    simp only [Option.map_some', div128_eq_zero_iff hp]
  · intro a g x m y hp hd
    rw [render_exaction_fields, hd]
    simp only [Option.map_some', div128_eq_zero_iff hp]
  · intro a g x m n z y hp hd
    rw [render_exaction_fields, hd]
    simp only [Option.map_some', div128_eq_zero_iff hp]
  · intro a g x y hp hd
    rw [render_exaction_fields, hd]
    simp only [Option.map_some', div128_eq_zero_iff hp]
  · intro a g c x m u y hp hd
    rw [render_exaction_fields, hd]
    simp only [Option.map_some', div128_eq_zero_iff hp, div64_mod2_eq_zero_iff]
  · intro a g c x u y hp hd
    rw [render_exaction_fields, hd]
    simp only [Option.map_some', div128_eq_zero_iff hp, div64_mod2_eq_zero_iff]
  · intro a g c x u y hd
    rw [render_exaction_fields, hd]
    simp only [Option.map_some']

/-- Counterexample to C7 as stated: for a `DestroyLocalCond` record with
`param = 2`, bit 0 of `param` is 0, so the claim requires the frame-offset
form `Cond: 0x5(SP)` — but the renderer tests the whole byte
(`param == 0`, lib.rs:644) and emits the register form `Cond: r5`. -/
theorem c7_counterexample :
    Nat.testBit 2 0 = false ∧
    render_exaction_fields ⟨0, .DestroyLocalCond, 2, false,
        [0, 5, 0, 7, 0, 0, 0, 0, 0, 9]⟩ "SP" =
      some ("Local: 0x7(SP)\nCond: r5\n") ∧
    some ("Local: 0x7(SP)\nCond: r5\n") ≠
      some ("Local: 0x7(SP)\nCond: 0x5(SP)\n") := by
  decide

/-- Witness for C7 at a concrete record: a `DestroyLocalPointer` with
`param = 128` (bit 7 set) renders in register form. -/
theorem c7_witness :
    render_exaction_fields ⟨0, .DestroyLocalPointer, 128, false,
        [0, 3, 0, 0, 0, 9]⟩ "SP" =
      some (if Nat.testBit 128 7 = false then
          "Pointer: " ++ hex0x 3 ++ "(" ++ "SP" ++ ")\n"
        else "Pointer: r" ++ toString 3 ++ "\n") :=
  c7_addressing_modes.1 _ "SP" 3 9 (by decide) (by decide)

/-- C8: on a truncated buffer the source does not fail with an explicit
`TruncatedBuffer` error — no such variant exists in `ExtabDecodeError` —
it panics on the out-of-bounds read (modelled as the `panicked` outcome).
On this 9-byte buffer the PC-range loop peeks a nonzero word at offset 4
and then reads a 16-bit field past the end of the buffer. -/
theorem c8_truncation_panics :
    parse_exception_table [0, 0, 0, 0, 0, 0, 0, 0, 1] = .panicked := by
  decide

/-- Counterexample to C9 as stated: `end_pc` is computed with wrapping
32-bit addition, so a range starting at `0xFFFFFFFF` with encoded range 1
decodes successfully to `end_pc = 3 < start_pc`. -/
theorem c9_counterexample :
    parse_exception_table
        ([0, 0, 0, 0] ++ [255, 255, 255, 255, 0, 1, 0, 0] ++ [0, 0, 0, 0]) =
      .ok (mk_table_data 0 0 [⟨4294967295, 3, 0⟩] [] []) ∧
    (3 : Nat) < 4294967295 := by
  decide

/-- C9 (amended): every `PcRange` of a successful decode has
`end_pc = (start_pc + 4 * encoded_range) mod 2^32` for some 16-bit encoded
range, and whenever that sum does not overflow 32 bits the claim's
equation and the invariant `start_pc ≤ end_pc` hold. -/
theorem c9_end_pc :
    ∀ (l : List Nat) (t : ExceptionTableData), parse_exception_table l = .ok t →
      ∀ q ∈ t.pc_actions, ∃ e, e < 65536 ∧
        q.end_pc = (q.start_pc + e * 4) % 2 ^ 32 ∧
        (q.start_pc + e * 4 < 2 ^ 32 →
          q.end_pc = q.start_pc + e * 4 ∧ q.start_pc ≤ q.end_pc) := by
  intro l t h q hq
  obtain ⟨fv, ef, pcs, c, acts, relocs, _, _, hpc, _, rfl⟩ :=
    parse_exception_table_ok h
  obtain ⟨e, he, _, heq⟩ := parse_pc_ranges_mem hpc q hq
  refine ⟨e, he, heq, fun hlt => ?_⟩
  rw [heq, Nat.mod_eq_of_lt hlt]
  exact ⟨rfl, Nat.le_add_right _ _⟩

/-- Witness for C9 on a concrete non-overflowing decode. -/
theorem c9_witness :
    ∃ e, e < 65536 ∧ (8196 : Nat) = (8192 + e * 4) % 2 ^ 32 := by
  have h := c9_end_pc ([0, 0, 0, 0] ++ [0, 0, 32, 0, 0, 1, 0, 0] ++ [0, 0, 0, 0])
    (mk_table_data 0 0 [⟨8192, 8196, 0⟩] [] []) (by decide)
    ⟨8192, 8196, 0⟩ (by decide)
  obtain ⟨e, he, heq, _⟩ := h
  exact ⟨e, he, heq⟩

end Cwextab
